import Mathlib

/-!
Verification of the bk-node REST backend against its specification.

The development shallowly embeds the validation / sanitization /
persistence-update pipeline of the repository: the user patch allow-list
filter (`src/routes/users.ts`), the user serialization transforms and the
token payloads (`src/models/User.ts`, `src/routes/auth.ts`), the flat
creation route and its address / currency normalizers
(`src/routes/flats.ts`), the credential validator
(`src/routes/auth.ts`), the question translation validator and
translation merge (`src/routes/questions.ts`), and the flat-assignment
handler (`src/routes/flats.ts`).

JavaScript runtime values carried by request bodies are embedded as the
inductive `Value`; JS numbers are modelled as `Option Int` where `none`
plays the role of `NaN` (the routes under study only ever compare and
bound integral numbers).
-/

namespace BkNode

/-- A JavaScript runtime value as it appears in a parsed request body. -/
inductive Value where
  | vUndefined : Value
  | vNull : Value
  | vBool : Bool → Value
  | vNum : Int → Value
  | vStr : String → Value
  | vObj : List (String × Value) → Value
  | vArr : List Value → Value

open Value

/-- JS truthiness (`if (v)`).  `NaN` does not arise in the embedded
routes, and the empty-string and zero cases follow JS. -/
def truthy : Value → Bool
  | .vUndefined => false
  | .vNull => false
  | .vBool b => b
  | .vNum n => n != 0
  | .vStr s => s != ""
  | .vObj _ => true
  | .vArr _ => true

/-- JS `v == null` (nullish test used by `??` and `!= null`). -/
def isNullish : Value → Bool
  | .vUndefined => true
  | .vNull => true
  | _ => false

/-- Property access `obj?.k` on a parsed JSON body: first binding wins,
missing keys and non-objects give `undefined`. -/
def getField (v : Value) (k : String) : Value :=
  match v with
  | .vObj fields =>
    match fields.find? (fun p => p.1 == k) with
    | some p => p.2
    | none => .vUndefined
  | _ => .vUndefined

/-- JS `a ?? b`. -/
def nullishAlt (a b : Value) : Value :=
  if isNullish a then b else a

/-- JS whitespace as relevant to `trim` (the embedded routes only meet
ASCII whitespace). -/
def isWsChar (c : Char) : Bool :=
  c == ' ' || c == '\t' || c == '\n' || c == '\r'

def trimChars (l : List Char) : List Char :=
  ((l.dropWhile isWsChar).reverse.dropWhile isWsChar).reverse

/-- JS `String.prototype.trim`. -/
def jsTrim (s : String) : String :=
  String.mk (trimChars s.data)

def upperChar (c : Char) : Char :=
  if 'a' ≤ c && c ≤ 'z' then Char.ofNat (c.toNat - 32) else c

def lowerChar (c : Char) : Char :=
  if 'A' ≤ c && c ≤ 'Z' then Char.ofNat (c.toNat + 32) else c

/-- JS `String.prototype.toUpperCase` (ASCII, as exercised by the routes). -/
def jsUpper (s : String) : String := String.mk (s.data.map upperChar)

/-- JS `String.prototype.toLowerCase` (ASCII, as exercised by the routes). -/
def jsLower (s : String) : String := String.mk (s.data.map lowerChar)

/-- Decimal digit run, as consumed by `Number(string)`. -/
def digitsToNat (l : List Char) : Option Nat :=
  if l.isEmpty then none
  else
    l.foldl
      (fun acc c =>
        match acc with
        | none => none
        | some a => if c.isDigit then some (a * 10 + (c.toNat - ('0').toNat)) else none)
      (some 0)

/-- JS `Number(string)`: trimmed empty string is `0`, otherwise an optional
sign followed by decimal digits; anything else is `NaN` (`none`).  (The
routes under study never feed fractional or exponent literals to
`Number`.) -/
def strToNumber (s : String) : Option Int :=
  let t := jsTrim s
  if t = "" then some 0
  else
    match t.data with
    | '-' :: rest => (digitsToNat rest).map (fun n => -(n : Int))
    | '+' :: rest => (digitsToNat rest).map (fun n => (n : Int))
    | l => (digitsToNat l).map (fun n => (n : Int))

/-- JS `Number(v)` with `none` for `NaN`.  Objects and arrays coerce via
strings in JS; the embedded routes never coerce them, so both are sent
to `NaN` here. -/
def jsToNumber : Value → Option Int
  | .vUndefined => none
  | .vNull => some 0
  | .vBool b => some (if b then 1 else 0)
  | .vNum n => some n
  | .vStr s => strToNumber s
  | .vObj _ => none
  | .vArr _ => none

/-- JS `String(v)`.  Array stringification is unused by the embedded
routes. -/
def jsToString : Value → String
  | .vUndefined => "undefined"
  | .vNull => "null"
  | .vBool b => if b then "true" else "false"
  | .vNum n => toString n
  | .vStr s => s
  | .vObj _ => "[object Object]"
  | .vArr _ => ""

/-! ## PATCH /users/:id — allow-list filter (src/routes/users.ts) -/

/-- The mongoose `User` document as held in memory by the PATCH handler:
the seven patchable fields plus fields the handler never touches. -/
structure StoredUser where
  userId : Value
  flats : Value
  createdAt : Value
  age : Value
  email : Value
  firstName : Value
  lastName : Value
  birthDate : Value
  address : Value
  password : Value

/-- The list `const allowed = ['age', 'email', 'firstName', 'lastName',
'birthDate', 'address', 'password']` from the PATCH /users/:id
handler. -/
def patchAllowedKeys : List String :=
  ["age", "email", "firstName", "lastName", "birthDate", "address", "password"]

/-- Assignment `user[key] = value` for an allow-listed `key`. -/
def setUserField (u : StoredUser) (k : String) (v : Value) : StoredUser :=
  if k = "age" then { u with age := v }
  else if k = "email" then { u with email := v }
  else if k = "firstName" then { u with firstName := v }
  else if k = "lastName" then { u with lastName := v }
  else if k = "birthDate" then { u with birthDate := v }
  else if k = "address" then { u with address := v }
  else if k = "password" then { u with password := v }
  else u

/-- The PATCH /users/:id copy loop:
`for (const key of Object.keys(req.body)) if (allowed.includes(key))
user[key] = req.body[key]`. -/
def patchUserFields (body : List (String × Value)) (u : StoredUser) : StoredUser :=
  body.foldl
    (fun acc kv =>
      if patchAllowedKeys.contains kv.1 then setUserField acc kv.1 kv.2 else acc)
    u

/-- The value the body assigns to key `k` (last binding wins, matching
`Object.keys` iteration where later assignments overwrite earlier
ones), or `none` when the body does not mention `k`. -/
def lastVal (body : List (String × Value)) (k : String) : Option Value :=
  (body.reverse.find? (fun p => p.1 == k)).map Prod.snd

lemma lastVal_nil (k : String) : lastVal [] k = none := rfl

lemma lastVal_cons_getD (kv : String × Value) (rest : List (String × Value))
    (k : String) (d : Value) :
    (lastVal (kv :: rest) k).getD d =
      (lastVal rest k).getD (if kv.1 == k then kv.2 else d) := by
  simp only [lastVal, List.reverse_cons, List.find?_append]
  cases h : rest.reverse.find? (fun p => p.1 == k) with
  | none =>
    simp only [Option.orElse_none, Option.none_orElse, List.find?]
    cases hk : (kv.1 == k) with
    | true => simp
    | false => simp
  | some p => simp

lemma setUserField_userId (u : StoredUser) (k : String) (v : Value) :
    (setUserField u k v).userId = u.userId := by
  unfold setUserField; split_ifs <;> rfl

lemma setUserField_flats (u : StoredUser) (k : String) (v : Value) :
    (setUserField u k v).flats = u.flats := by
  unfold setUserField; split_ifs <;> rfl

lemma setUserField_createdAt (u : StoredUser) (k : String) (v : Value) :
    (setUserField u k v).createdAt = u.createdAt := by
  unfold setUserField; split_ifs <;> rfl

/-- One step of the patch loop. -/
def patchStep (u : StoredUser) (kv : String × Value) : StoredUser :=
  if patchAllowedKeys.contains kv.1 then setUserField u kv.1 kv.2 else u

lemma patchUserFields_cons (kv : String × Value) (rest : List (String × Value))
    (u : StoredUser) :
    patchUserFields (kv :: rest) u = patchUserFields rest (patchStep u kv) := rfl

lemma patchStep_age (u : StoredUser) (kv : String × Value) :
    (patchStep u kv).age = if kv.1 == "age" then kv.2 else u.age := by
  unfold patchStep setUserField patchAllowedKeys
  rcases kv with ⟨k, v⟩
  by_cases h : k = "age" <;> simp [h] <;> split_ifs <;> simp_all

lemma patchStep_email (u : StoredUser) (kv : String × Value) :
    (patchStep u kv).email = if kv.1 == "email" then kv.2 else u.email := by
  unfold patchStep setUserField patchAllowedKeys
  rcases kv with ⟨k, v⟩
  by_cases h : k = "email" <;> simp [h] <;> split_ifs <;> simp_all

lemma patchStep_firstName (u : StoredUser) (kv : String × Value) :
    (patchStep u kv).firstName = if kv.1 == "firstName" then kv.2 else u.firstName := by
  unfold patchStep setUserField patchAllowedKeys
  rcases kv with ⟨k, v⟩
  by_cases h : k = "firstName" <;> simp [h] <;> split_ifs <;> simp_all

lemma patchStep_lastName (u : StoredUser) (kv : String × Value) :
    (patchStep u kv).lastName = if kv.1 == "lastName" then kv.2 else u.lastName := by
  unfold patchStep setUserField patchAllowedKeys
  rcases kv with ⟨k, v⟩
  by_cases h : k = "lastName" <;> simp [h] <;> split_ifs <;> simp_all

lemma patchStep_birthDate (u : StoredUser) (kv : String × Value) :
    (patchStep u kv).birthDate = if kv.1 == "birthDate" then kv.2 else u.birthDate := by
  unfold patchStep setUserField patchAllowedKeys
  rcases kv with ⟨k, v⟩
  by_cases h : k = "birthDate" <;> simp [h] <;> split_ifs <;> simp_all

lemma patchStep_address (u : StoredUser) (kv : String × Value) :
    (patchStep u kv).address = if kv.1 == "address" then kv.2 else u.address := by
  unfold patchStep setUserField patchAllowedKeys
  rcases kv with ⟨k, v⟩
  by_cases h : k = "address" <;> simp [h] <;> split_ifs <;> simp_all

lemma patchStep_password (u : StoredUser) (kv : String × Value) :
    (patchStep u kv).password = if kv.1 == "password" then kv.2 else u.password := by
  unfold patchStep setUserField patchAllowedKeys
  rcases kv with ⟨k, v⟩
  by_cases h : k = "password" <;> simp [h] <;> split_ifs <;> simp_all

lemma patchStep_userId (u : StoredUser) (kv : String × Value) :
    (patchStep u kv).userId = u.userId := by
  unfold patchStep; split_ifs <;> simp [setUserField_userId]

lemma patchStep_flats (u : StoredUser) (kv : String × Value) :
    (patchStep u kv).flats = u.flats := by
  unfold patchStep; split_ifs <;> simp [setUserField_flats]

lemma patchStep_createdAt (u : StoredUser) (kv : String × Value) :
    (patchStep u kv).createdAt = u.createdAt := by
  unfold patchStep; split_ifs <;> simp [setUserField_createdAt]

lemma patchUserFields_userId (body : List (String × Value)) (u : StoredUser) :
    (patchUserFields body u).userId = u.userId := by
  induction body generalizing u with
  | nil => rfl
  | cons kv rest ih => rw [patchUserFields_cons, ih, patchStep_userId]

lemma patchUserFields_flats (body : List (String × Value)) (u : StoredUser) :
    (patchUserFields body u).flats = u.flats := by
  induction body generalizing u with
  | nil => rfl
  | cons kv rest ih => rw [patchUserFields_cons, ih, patchStep_flats]

lemma patchUserFields_createdAt (body : List (String × Value)) (u : StoredUser) :
    (patchUserFields body u).createdAt = u.createdAt := by
  induction body generalizing u with
  | nil => rfl
  | cons kv rest ih => rw [patchUserFields_cons, ih, patchStep_createdAt]

lemma patchUserFields_age (body : List (String × Value)) (u : StoredUser) :
    (patchUserFields body u).age = (lastVal body "age").getD u.age := by
  induction body generalizing u with
  | nil => rfl
  | cons kv rest ih =>
    rw [patchUserFields_cons, ih, lastVal_cons_getD, patchStep_age]

lemma patchUserFields_email (body : List (String × Value)) (u : StoredUser) :
    (patchUserFields body u).email = (lastVal body "email").getD u.email := by
  induction body generalizing u with
  | nil => rfl
  | cons kv rest ih =>
    rw [patchUserFields_cons, ih, lastVal_cons_getD, patchStep_email]

lemma patchUserFields_firstName (body : List (String × Value)) (u : StoredUser) :
    (patchUserFields body u).firstName = (lastVal body "firstName").getD u.firstName := by
  induction body generalizing u with
  | nil => rfl
  | cons kv rest ih =>
    rw [patchUserFields_cons, ih, lastVal_cons_getD, patchStep_firstName]

lemma patchUserFields_lastName (body : List (String × Value)) (u : StoredUser) :
    (patchUserFields body u).lastName = (lastVal body "lastName").getD u.lastName := by
  induction body generalizing u with
  | nil => rfl
  | cons kv rest ih =>
    rw [patchUserFields_cons, ih, lastVal_cons_getD, patchStep_lastName]

lemma patchUserFields_birthDate (body : List (String × Value)) (u : StoredUser) :
    (patchUserFields body u).birthDate = (lastVal body "birthDate").getD u.birthDate := by
  induction body generalizing u with
  | nil => rfl
  | cons kv rest ih =>
    rw [patchUserFields_cons, ih, lastVal_cons_getD, patchStep_birthDate]

lemma patchUserFields_address (body : List (String × Value)) (u : StoredUser) :
    (patchUserFields body u).address = (lastVal body "address").getD u.address := by
  induction body generalizing u with
  | nil => rfl
  | cons kv rest ih =>
    rw [patchUserFields_cons, ih, lastVal_cons_getD, patchStep_address]

lemma patchUserFields_password (body : List (String × Value)) (u : StoredUser) :
    (patchUserFields body u).password = (lastVal body "password").getD u.password := by
  induction body generalizing u with
  | nil => rfl
  | cons kv rest ih =>
    rw [patchUserFields_cons, ih, lastVal_cons_getD, patchStep_password]

/-- C1.  The PATCH /users/:id copy loop writes exactly the seven
allow-listed keys onto the stored user, each taking the body's value for
that key unmodified (last binding wins) and keeping the stored value
when the body omits the key; every other field of the stored entity —
and hence every body key outside the allow-list — is untouched, and no
key is ever rejected (the loop is total). -/
theorem c1_patch_allowlist (body : List (String × Value)) (u : StoredUser) :
    (patchUserFields body u).userId = u.userId ∧
    (patchUserFields body u).flats = u.flats ∧
    (patchUserFields body u).createdAt = u.createdAt ∧
    (patchUserFields body u).age = (lastVal body "age").getD u.age ∧
    (patchUserFields body u).email = (lastVal body "email").getD u.email ∧
    (patchUserFields body u).firstName = (lastVal body "firstName").getD u.firstName ∧
    (patchUserFields body u).lastName = (lastVal body "lastName").getD u.lastName ∧
    (patchUserFields body u).birthDate = (lastVal body "birthDate").getD u.birthDate ∧
    (patchUserFields body u).address = (lastVal body "address").getD u.address ∧
    (patchUserFields body u).password = (lastVal body "password").getD u.password :=
  ⟨patchUserFields_userId body u, patchUserFields_flats body u,
   patchUserFields_createdAt body u, patchUserFields_age body u,
   patchUserFields_email body u, patchUserFields_firstName body u,
   patchUserFields_lastName body u, patchUserFields_birthDate body u,
   patchUserFields_address body u, patchUserFields_password body u⟩

/-! ## User serialization and token payloads
(src/models/User.ts, src/routes/auth.ts, src/services/jwt.ts) -/

/-- A persisted `User` document (post-registration, so `password` holds
the bcrypt hash produced by the pre-save hook). -/
structure DbUser where
  userId : String
  email : String
  firstName : String
  lastName : String
  age : Int
  birthDate : Value
  address : String
  password : String
  flats : List String

/-- The raw field bag of a `User` document when the password field is
selected (`.select('+password')`), before any transform runs. -/
def userFieldsWithPassword (u : DbUser) : List (String × Value) :=
  [("_id", .vStr u.userId),
   ("age", .vNum u.age),
   ("email", .vStr u.email),
   ("firstName", .vStr u.firstName),
   ("lastName", .vStr u.lastName),
   ("birthDate", u.birthDate),
   ("address", .vStr u.address),
   ("password", .vStr u.password),
   ("flats", .vArr (u.flats.map Value.vStr))]

/-- The transform step `Reflect.deleteProperty(ret, k)` on a serialized field bag. -/
def deleteProperty (fields : List (String × Value)) (k : String) : List (String × Value) :=
  fields.filter (fun p => p.1 != k)

/-- Serialization `user.toObject()` / `user.toJSON()`: the schema transform deletes
the `password` property (src/models/User.ts). -/
def userToObject (u : DbUser) : List (String × Value) :=
  deleteProperty (userFieldsWithPassword u) "password"

/-- POST /auth/register 201 body: `user.toObject()`. -/
def registerResponseBody (u : DbUser) : List (String × Value) :=
  userToObject u

/-- GET /users/:id body: `findById(id).select('-password')`, so the
password field is excluded by the projection (and the transform would
delete it anyway). -/
def getUserResponseBody (u : DbUser) : List (String × Value) :=
  deleteProperty (userFieldsWithPassword u) "password"

/-- PATCH /users/:id body: `user.toObject()` followed by an explicit
`delete sanitized.password`. -/
def patchUserResponseBody (u : DbUser) : List (String × Value) :=
  deleteProperty (userToObject u) "password"

/-- The `userForToken` record as built by POST /auth/login: the login query selects
`+password`, so the payload's `password` field is the stored bcrypt
hash. -/
def loginUserForToken (u : DbUser) : List (String × Value) :=
  [("id", .vStr u.userId),
   ("password", .vStr u.password),
   ("age", .vNum u.age),
   ("address", .vStr u.address),
   ("email", .vStr u.email),
   ("firstName", .vStr u.firstName),
   ("lastName", .vStr u.lastName)]

/-- The `userForToken` record as built by POST /auth/refresh: the refresh query
(`User.findOne({email})`) uses the default projection, and the schema
declares `password` with `select: false`, so `user.password` is
`undefined` there. -/
def refreshUserForToken (u : DbUser) : List (String × Value) :=
  [("id", .vStr u.userId),
   ("password", .vUndefined),
   ("age", .vNum u.age),
   ("address", .vStr u.address),
   ("email", .vStr u.email),
   ("firstName", .vStr u.firstName),
   ("lastName", .vStr u.lastName)]

def isUndefinedV : Value → Bool
  | .vUndefined => true
  | _ => false

/-- Claims of a signed JWT: `jwt.sign({...payload}, secret)` JSON-encodes
the spread payload, which drops properties whose value is `undefined`. -/
def jwtClaims (payload : List (String × Value)) : List (String × Value) :=
  payload.filter (fun p => !isUndefinedV p.2)

/-- Access-token claims issued by POST /auth/login. -/
def loginAccessTokenClaims (u : DbUser) : List (String × Value) :=
  jwtClaims (loginUserForToken u)

/-- Refresh-token claims issued by POST /auth/login (same payload). -/
def loginRefreshTokenClaims (u : DbUser) : List (String × Value) :=
  jwtClaims (loginUserForToken u)

/-- Access-token claims issued by POST /auth/refresh. -/
def refreshAccessTokenClaims (u : DbUser) : List (String × Value) :=
  jwtClaims (refreshUserForToken u)

/-- Refresh-token claims issued by POST /auth/refresh (same payload). -/
def refreshRefreshTokenClaims (u : DbUser) : List (String × Value) :=
  jwtClaims (refreshUserForToken u)

/-- A concrete stored user whose password field holds a bcrypt hash. -/
def c2User : DbUser :=
  { userId := "64a0f3"
    email := "john@example.com"
    firstName := "John"
    lastName := "Doe"
    age := 30
    birthDate := .vNull
    address := "123 Main St"
    password := "$2a$10$storedBcryptHash"
    flats := [] }

/-- C2, counterexample.  The claim says no outward-bound data — the
login-issued tokens included — ever contains the user's password, even
hashed; but the access token issued by POST /auth/login carries the
stored bcrypt hash as its `password` claim. -/
theorem c2_counterexample :
    ("password", Value.vStr "$2a$10$storedBcryptHash") ∈ loginAccessTokenClaims c2User :=
  List.Mem.tail _ (List.Mem.head _)

lemma password_not_in_delete (fields : List (String × Value)) :
    "password" ∉ (deleteProperty fields "password").map Prod.fst := by
  intro h
  rcases List.mem_map.mp h with ⟨p, hp, hfst⟩
  rcases List.mem_filter.mp hp with ⟨_, hne⟩
  simp only [bne_iff_ne, ne_eq, decide_eq_true_eq] at hne
  exact hne hfst

/-- C2, amended.  The registration response, the user read response and
the patch response never carry a `password` key; but the access and
refresh tokens issued at login both embed the stored password hash as a
claim, while the tokens issued at refresh omit the password only because
the refresh handler's query leaves the field unselected (`undefined`),
which JSON encoding then drops. -/
theorem c2_password_serialization (u : DbUser) :
    "password" ∉ (registerResponseBody u).map Prod.fst ∧
    "password" ∉ (getUserResponseBody u).map Prod.fst ∧
    "password" ∉ (patchUserResponseBody u).map Prod.fst ∧
    ("password", Value.vStr u.password) ∈ loginAccessTokenClaims u ∧
    ("password", Value.vStr u.password) ∈ loginRefreshTokenClaims u ∧
    "password" ∉ (refreshAccessTokenClaims u).map Prod.fst ∧
    "password" ∉ (refreshRefreshTokenClaims u).map Prod.fst := by
  refine ⟨password_not_in_delete _, password_not_in_delete _, password_not_in_delete _,
    ?_, ?_, ?_, ?_⟩
  · exact List.Mem.tail _ (List.Mem.head _)
  · exact List.Mem.tail _ (List.Mem.head _)
  · simp [refreshAccessTokenClaims, jwtClaims, refreshUserForToken, isUndefinedV]
  · simp [refreshRefreshTokenClaims, jwtClaims, refreshUserForToken, isUndefinedV]

/-! ## POST /auth/register — credential validator (src/routes/auth.ts) -/

def isStringV : Value → Bool
  | .vStr _ => true
  | _ => false

/-- The character class of the registration email pattern. -/
def nonAtSpace (c : Char) : Bool :=
  !(c == '@') && !c.isWhitespace

/-- Remainders of the input after consuming one or more leading
characters satisfying `p` (all the ways `p+` can match at the front). -/
def plusRems (p : Char → Bool) : List Char → List (List Char)
  | [] => []
  | c :: rest => if p c then rest :: plusRems p rest else []

/-- Does `[^@\s]+@[^@\s]+\.[^@\s]+` match at the head of the input? -/
def matchEmailHere (l : List Char) : Bool :=
  (plusRems nonAtSpace l).any fun r1 =>
    match r1 with
    | '@' :: r2 =>
      (plusRems nonAtSpace r2).any fun r3 =>
        match r3 with
        | '.' :: r4 =>
          match r4 with
          | c :: _ => nonAtSpace c
          | [] => false
        | _ => false
    | _ => false

/-- JS `String.prototype.match` with the unanchored registration email
regex: search for a match at any position. -/
def emailSearch : List Char → Bool
  | [] => false
  | c :: rest => matchEmailHere (c :: rest) || emailSearch rest

/-- The collect-all validation pass of POST /auth/register: pushes every
failed check's message, then applies the second pass on the normalized
email and the coerced age. -/
def registerErrors (body : Value) : List String :=
  let rawEmail := getField body "email"
  let address := getField body "address"
  let rawAge := getField body "age"
  let firstName := getField body "firstName"
  let lastName := getField body "lastName"
  let password := getField body "password"
  let e1 := if !truthy rawEmail || !isStringV rawEmail then ["email is required"] else []
  let e2 := if !truthy address || !isStringV address then ["address is required"] else []
  let e3 := if isNullish rawAge then ["age is required"] else []
  let e4 := if isNullish firstName || jsTrim (jsToString firstName) == "" then
      ["firstName is required"] else []
  let e5 := if isNullish lastName || jsTrim (jsToString lastName) == "" then
      ["lastName is required"] else []
  let e6 := if !truthy password || !isStringV password ||
      (match password with | .vStr s => s.length < 6 | _ => false) then
      ["password is required and must be at least 6 characters"] else []
  let email := if truthy rawEmail then jsTrim (jsLower (jsToString rawEmail)) else ""
  let age : Option Int := if isUndefinedV rawAge then none else jsToNumber rawAge
  let e7 := if !emailSearch email.data then ["email is invalid"] else []
  let e8 := match age with
    | none => ["age must be a number between 0 and 150"]
    | some a => if a < 0 || a > 150 then ["age must be a number between 0 and 150"] else []
  e1 ++ e2 ++ e3 ++ e4 ++ e5 ++ e6 ++ e7 ++ e8

/-- The registration input of the claim. -/
def c4Body : Value :=
  .vObj [("email", .vStr "bad"), ("age", .vNum 200), ("password", .vStr "short")]

/-- C4.  On `{email:"bad", age:200, password:"short"}` the credential
validator returns, in one response, a list simultaneously containing the
email-shape, age-range and password-length violations (together with the
missing-field violations) — it collects every violation instead of
stopping at the first. -/
theorem c4_collect_all_validator :
    registerErrors c4Body =
      ["address is required", "firstName is required", "lastName is required",
       "password is required and must be at least 6 characters",
       "email is invalid", "age must be a number between 0 and 150"] ∧
    "email is invalid" ∈ registerErrors c4Body ∧
    "age must be a number between 0 and 150" ∈ registerErrors c4Body ∧
    "password is required and must be at least 6 characters" ∈ registerErrors c4Body := by
  have h : registerErrors c4Body =
      ["address is required", "firstName is required", "lastName is required",
       "password is required and must be at least 6 characters",
       "email is invalid", "age must be a number between 0 and 150"] := rfl
  rw [h]
  exact ⟨rfl, by simp, by simp, by simp⟩

/-! ## Questions — translation validation and merge
(src/routes/questions.ts, src/models/Question.ts) -/

/-- Function `toLangId` from src/routes/questions.ts: nullish input and `NaN`
coercions are rejected (`null`), anything else is `Number(value)`. -/
def toLangId (v : Value) : Option Int :=
  if isNullish v then none else jsToNumber v

/-- The set `ALLOWED_LANGUAGE_IDS` — Georgian 1, English 2, Russian 3. -/
def ALLOWED_LANGUAGE_IDS : List Int := [1, 2, 3]

def numericLangErr : String :=
  "Each translation must include a numeric languageId (1, 2 or 3)"

def allowedLangErr : String := "languageId must be one of: 1, 2, 3"

def dupLangErr : String := "Duplicate languageId in translations is not allowed"

def qaErr : String := "Each translation must have question and answer"

/-- One translation of a question create/update request body. -/
structure TransReq where
  languageId : Value
  question : Value
  answer : Value

/-- A translation subdocument as stored on a `Question`; its
`languageId` is a JS number (`none` standing for `NaN`). -/
structure StoredTrans where
  languageId : Option Int
  question : Value
  answer : Value

/-- The translation validation loop shared by POST /questions and
PATCH /questions/:id: for each entry in list order — numeric languageId,
membership in the supported set, duplicate against the ids seen so far,
then non-empty question/answer — returning the first violation and
stopping there. -/
def validateTranslationsFrom : List Int → List TransReq → Option String
  | _, [] => none
  | seen, t :: rest =>
    match toLangId t.languageId with
    | none => some numericLangErr
    | some langId =>
      if !ALLOWED_LANGUAGE_IDS.contains langId then some allowedLangErr
      else if seen.contains langId then some dupLangErr
      else if !truthy t.question || !truthy t.answer then some qaErr
      else validateTranslationsFrom (langId :: seen) rest

/-- The whole-list validation with an initially empty `seenLangs` set. -/
def validateTranslations (ts : List TransReq) : Option String :=
  validateTranslationsFrom [] ts

/-- An entry that passes all per-entry checks of the loop. -/
def entryOk (t : TransReq) : Bool :=
  match toLangId t.languageId with
  | some n => ALLOWED_LANGUAGE_IDS.contains n && truthy t.question && truthy t.answer
  | none => false

/-- The coerced language ids of the entries, in list order. -/
def coercedIds (ts : List TransReq) : List Int :=
  ts.filterMap (fun t => toLangId t.languageId)

lemma validate_cons_none (seen : List Int) (t : TransReq) (rest : List TransReq)
    (h : toLangId t.languageId = none) :
    validateTranslationsFrom seen (t :: rest) = some numericLangErr := by
  unfold validateTranslationsFrom; rw [h]

lemma validate_cons_some (seen : List Int) (t : TransReq) (rest : List TransReq)
    (n : Int) (h : toLangId t.languageId = some n) :
    validateTranslationsFrom seen (t :: rest) =
      (if !ALLOWED_LANGUAGE_IDS.contains n then some allowedLangErr
       else if seen.contains n then some dupLangErr
       else if !truthy t.question || !truthy t.answer then some qaErr
       else validateTranslationsFrom (n :: seen) rest) := by
  conv_lhs => unfold validateTranslationsFrom
  rw [h]

lemma validate_prefix_stable (p : List TransReq) :
    ∀ (seen : List Int) (q : List TransReq) (e : String),
      validateTranslationsFrom seen p = some e →
      validateTranslationsFrom seen (p ++ q) = some e := by
  induction p with
  | nil =>
    intro seen q e h
    simp [validateTranslationsFrom] at h
  | cons t rest ih =>
    intro seen q e h
    rw [List.cons_append]
    cases ht : toLangId t.languageId with
    | none =>
      rw [validate_cons_none _ _ _ ht] at h
      rw [validate_cons_none _ _ _ ht]
      exact h
    | some n =>
      rw [validate_cons_some _ _ _ _ ht] at h
      rw [validate_cons_some _ _ _ _ ht]
      split_ifs at h ⊢ <;> first | exact h | exact ih _ _ _ h

lemma validate_dup_aux (p : List TransReq) :
    ∀ (seen : List Int) (t : TransReq) (rest : List TransReq) (n : Int),
      (∀ t' ∈ p, entryOk t' = true) →
      (coercedIds p).Nodup →
      (∀ m ∈ coercedIds p, m ∉ seen) →
      toLangId t.languageId = some n →
      ALLOWED_LANGUAGE_IDS.contains n = true →
      (n ∈ seen ∨ n ∈ coercedIds p) →
      validateTranslationsFrom seen (p ++ t :: rest) = some dupLangErr := by
  induction p with
  | nil =>
    intro seen t rest n _ _ _ ht hall hmem
    have hn : n ∈ seen := by
      rcases hmem with h | h
      · exact h
      · simp [coercedIds] at h
    rw [List.nil_append, validate_cons_some _ _ _ _ ht, hall]
    simp [List.contains, List.elem_iff, hn]
  | cons t' p' ih =>
    intro seen t rest n hok hnd hdisj ht hall hmem
    have hok' : entryOk t' = true := hok t' (List.mem_cons_self _ _)
    unfold entryOk at hok'
    cases ht' : toLangId t'.languageId with
    | none => rw [ht'] at hok'; exact absurd hok' (by simp)
    | some m =>
      rw [ht'] at hok'
      have hids : coercedIds (t' :: p') = m :: coercedIds p' := by
        simp [coercedIds, List.filterMap_cons, ht']
      rw [hids] at hnd hdisj hmem
      have hmallow : ALLOWED_LANGUAGE_IDS.contains m = true := by
        simp only [Bool.and_eq_true] at hok'; exact hok'.1.1
      have hq : truthy t'.question = true := by
        simp only [Bool.and_eq_true] at hok'; exact hok'.1.2
      have ha : truthy t'.answer = true := by
        simp only [Bool.and_eq_true] at hok'; exact hok'.2
      have hmseen : m ∉ seen := hdisj m (List.mem_cons_self _ _)
      rw [List.cons_append, validate_cons_some _ _ _ _ ht', hmallow]
      have hcont : seen.contains m = false := by
        simp [List.contains, List.elem_iff]; exact hmseen
      rw [hcont]
      simp only [Bool.not_true, if_false, hq, ha, Bool.or_self, ite_false,
        Bool.not_false, ite_true]
      refine ih (m :: seen) t rest n (fun x hx => hok x (List.mem_cons_of_mem _ hx))
        (List.Nodup.of_cons hnd) ?_ ht hall ?_
      · intro k hk
        have hkm : k ≠ m := by
          intro hkm; subst hkm
          exact (List.nodup_cons.mp hnd).1 hk
        have : k ∉ seen := hdisj k (List.mem_cons_of_mem _ hk)
        simp [hkm, this]
      · rcases hmem with h | h
        · exact Or.inl (List.mem_cons_of_mem _ h)
        · rcases List.mem_cons.mp h with h | h
          · exact Or.inl (h ▸ List.mem_cons_self _ _)
          · exact Or.inr h

/-- C5.  The translation validator proceeds in list order and returns
the first violation it finds, stopping there (a violating prefix fixes
the result whatever follows); in particular a list whose entries are all
individually valid but where one entry's language id is numerically
equal to an earlier one is rejected with the duplicate error, reported
when the loop reaches the second occurrence. -/
theorem c5_translation_validator_fail_fast :
    (∀ (seen : List Int) (p q : List TransReq) (e : String),
        validateTranslationsFrom seen p = some e →
        validateTranslationsFrom seen (p ++ q) = some e) ∧
    (∀ (p : List TransReq) (t : TransReq) (rest : List TransReq) (n : Int),
        (∀ t' ∈ p, entryOk t' = true) →
        (coercedIds p).Nodup →
        toLangId t.languageId = some n →
        ALLOWED_LANGUAGE_IDS.contains n = true →
        n ∈ coercedIds p →
        validateTranslations (p ++ t :: rest) = some dupLangErr) :=
  ⟨fun seen p q e h => validate_prefix_stable p seen q e h,
   fun p t rest n hok hnd ht hall hmem =>
     validate_dup_aux p [] t rest n hok hnd (by simp) ht hall (Or.inr hmem)⟩

/-- C5 witness: `[{languageId:1,...}, {languageId:"1",...}, junk]` — the
second entry's id is numerically equal to the first's, all its other
fields are valid, and the invalid trailing entry is never reached. -/
theorem c5_witness :
    validateTranslations
      [⟨.vNum 1, .vStr "q1", .vStr "a1"⟩,
       ⟨.vStr "1", .vStr "q2", .vStr "a2"⟩,
       ⟨.vNull, .vUndefined, .vUndefined⟩] = some dupLangErr := by
  have h := c5_translation_validator_fail_fast.2
    [⟨.vNum 1, .vStr "q1", .vStr "a1"⟩]
    ⟨.vStr "1", .vStr "q2", .vStr "a2"⟩
    [⟨.vNull, .vUndefined, .vUndefined⟩] 1
    (by intro t' h'; rw [List.mem_singleton] at h'; subst h'; rfl)
    (by rw [show coercedIds [⟨Value.vNum 1, Value.vStr "q1", Value.vStr "a1"⟩] = [1] from rfl]
        exact List.nodup_singleton 1)
    rfl rfl
    (by rw [show coercedIds [⟨Value.vNum 1, Value.vStr "q1", Value.vStr "a1"⟩] = [1] from rfl]
        exact List.mem_singleton_self 1)
  exact h

/-- JS strict equality `===` on numbers (`NaN`, here `none`, compares
unequal to everything, itself included). -/
def jsNumEq (a b : Option Int) : Bool :=
  match a, b with
  | some x, some y => x == y
  | _, _ => false

/-- POST /questions stores
`translations.map(t => ({languageId: Number(t.languageId), question:
t.question, answer: t.answer}))`. -/
def createTranslations (ts : List TransReq) : List StoredTrans :=
  ts.map (fun t => ⟨jsToNumber t.languageId, t.question, t.answer⟩)

/-- The `findIndex` + indexed assignment of the PATCH /questions/:id
merge, rendered as first-match replacement: replace the first stored
translation whose numeric language id strictly equals the incoming one
(keeping the existing text where the incoming field is nullish), or
`none` when no stored translation matches. -/
def replaceFirst (newLang : Option Int) (q a : Value) :
    List StoredTrans → Option (List StoredTrans)
  | [] => none
  | st :: rest =>
    if jsNumEq st.languageId newLang then
      some (⟨newLang, nullishAlt q st.question, nullishAlt a st.answer⟩ :: rest)
    else
      (replaceFirst newLang q a rest).map (fun l => st :: l)

/-- One incoming translation merged into the stored list: update the
existing entry with the same numeric language id (`newLang =
Number(newTrans.languageId)`), else push a new entry. -/
def mergeOne (cur : List StoredTrans) (t : TransReq) : List StoredTrans :=
  match replaceFirst (jsToNumber t.languageId) t.question t.answer cur with
  | some l => l
  | none => cur ++ [⟨jsToNumber t.languageId, t.question, t.answer⟩]

/-- The `body.translations.forEach` merge loop of PATCH /questions/:id. -/
def mergeTranslations (stored : List StoredTrans) (ts : List TransReq) : List StoredTrans :=
  ts.foldl mergeOne stored

/-- At most one stored translation per language id: the stored ids are
pairwise distinct under JS numeric equality. -/
def uniqLangIds (l : List StoredTrans) : Prop :=
  List.Pairwise (fun a b => jsNumEq a b = false) (l.map (fun st => st.languageId))

lemma jsNumEq_true_eq {a b : Option Int} (h : jsNumEq a b = true) : a = b := by
  cases a with
  | none => cases b <;> simp [jsNumEq] at h
  | some x =>
    cases b with
    | none => simp [jsNumEq] at h
    | some y => simp only [jsNumEq, beq_iff_eq] at h; rw [h]

lemma jsNumEq_comm (a b : Option Int) : jsNumEq a b = jsNumEq b a := by
  cases a with
  | none => cases b <;> rfl
  | some x =>
    cases b with
    | none => rfl
    | some y =>
      simp only [jsNumEq]
      by_cases h : x = y
      · simp [h]
      · simp [beq_eq_false_iff_ne, h, Ne.symm h]

lemma replaceFirst_cons (newLang : Option Int) (q a : Value)
    (st : StoredTrans) (rest : List StoredTrans) :
    replaceFirst newLang q a (st :: rest) =
      if jsNumEq st.languageId newLang then
        some (⟨newLang, nullishAlt q st.question, nullishAlt a st.answer⟩ :: rest)
      else (replaceFirst newLang q a rest).map (fun l => st :: l) := rfl

lemma replaceFirst_ids (newLang : Option Int) (q a : Value) :
    ∀ (cur l : List StoredTrans), replaceFirst newLang q a cur = some l →
      l.map (fun st => st.languageId) = cur.map (fun st => st.languageId) := by
  intro cur
  induction cur with
  | nil => intro l h; simp [replaceFirst] at h
  | cons st rest ih =>
    intro l h
    rw [replaceFirst_cons] at h
    split_ifs at h with hst
    · have h' := Option.some.inj h
      rw [← h']
      simp only [List.map_cons]
      rw [jsNumEq_true_eq hst]
    · cases hr : replaceFirst newLang q a rest with
      | none => simp [hr] at h
      | some l' =>
        simp only [hr, Option.map_some', Option.some.injEq] at h
        rw [← h]
        simp [ih l' hr]

lemma replaceFirst_none (newLang : Option Int) (q a : Value) :
    ∀ (cur : List StoredTrans), replaceFirst newLang q a cur = none →
      ∀ st ∈ cur, jsNumEq st.languageId newLang = false := by
  intro cur
  induction cur with
  | nil => intro _ st hst; simp at hst
  | cons st0 rest ih =>
    intro h st hst
    rw [replaceFirst_cons] at h
    split_ifs at h with hst0
    cases hr : replaceFirst newLang q a rest with
    | none =>
      rcases List.mem_cons.mp hst with h' | h'
      · rw [h']; exact Bool.eq_false_iff.mpr hst0
      · exact ih hr st h'
    | some l' => simp [hr] at h

lemma mergeOne_uniq (cur : List StoredTrans) (t : TransReq)
    (h : uniqLangIds cur) : uniqLangIds (mergeOne cur t) := by
  unfold mergeOne
  cases hr : replaceFirst (jsToNumber t.languageId) t.question t.answer cur with
  | some l =>
    show uniqLangIds l
    unfold uniqLangIds at h ⊢
    rw [replaceFirst_ids _ _ _ cur l hr]
    exact h
  | none =>
    show uniqLangIds (cur ++ [⟨jsToNumber t.languageId, t.question, t.answer⟩])
    unfold uniqLangIds at h ⊢
    rw [List.map_append]
    rw [List.pairwise_append]
    refine ⟨h, List.pairwise_singleton _ _, ?_⟩
    intro x hx y hy
    rcases List.mem_map.mp hx with ⟨st, hst, hid⟩
    simp only [List.map_cons, List.map_nil, List.mem_singleton] at hy
    rw [← hid, hy]
    exact replaceFirst_none _ _ _ cur hr st hst

lemma mergeTranslations_uniq (ts : List TransReq) :
    ∀ stored : List StoredTrans, uniqLangIds stored →
      uniqLangIds (mergeTranslations stored ts) := by
  induction ts with
  | nil => intro stored h; exact h
  | cons t rest ih =>
    intro stored h
    exact ih (mergeOne stored t) (mergeOne_uniq stored t h)

lemma toLangId_jsToNumber {v : Value} {n : Int} (h : toLangId v = some n) :
    jsToNumber v = some n := by
  unfold toLangId at h
  split_ifs at h
  exact h

lemma create_uniq_aux (ts : List TransReq) :
    ∀ seen : List Int, validateTranslationsFrom seen ts = none →
      uniqLangIds (createTranslations ts) ∧
        ∀ st ∈ createTranslations ts, ∀ m ∈ seen,
          jsNumEq st.languageId (some m) = false := by
  induction ts with
  | nil =>
    intro seen _
    exact ⟨List.Pairwise.nil, by intro st hst; simp [createTranslations] at hst⟩
  | cons t rest ih =>
    intro seen h
    cases ht : toLangId t.languageId with
    | none => rw [validate_cons_none _ _ _ ht] at h; exact absurd h (by simp)
    | some n =>
      rw [validate_cons_some _ _ _ _ ht] at h
      split_ifs at h with h1 h2 h3
      have hrest := ih (n :: seen) h
      have hn : jsToNumber t.languageId = some n := toLangId_jsToNumber ht
      have hnseen : n ∉ seen := by
        intro hc
        exact h2 (by simp [List.contains, List.elem_iff, hc])
      have hfst : createTranslations (t :: rest)
          = ⟨jsToNumber t.languageId, t.question, t.answer⟩ :: createTranslations rest := rfl
      constructor
      · unfold uniqLangIds
        rw [hfst, List.map_cons, List.pairwise_cons]
        constructor
        · intro b hb
          rcases List.mem_map.mp hb with ⟨st', hst', hid⟩
          have hx := hrest.2 st' hst' n (List.mem_cons_self _ _)
          show jsNumEq (jsToNumber t.languageId) b = false
          rw [← hid, jsNumEq_comm, hn]
          exact hx
        · exact hrest.1
      · intro st hst m hm
        rw [hfst] at hst
        rcases List.mem_cons.mp hst with h' | h'
        · rw [h']
          show jsNumEq (jsToNumber t.languageId) (some m) = false
          rw [hn]
          simp only [jsNumEq, beq_eq_false_iff_ne, ne_eq]
          intro hc; subst hc; exact hnseen hm
        · exact hrest.2 st h' m (List.mem_cons_of_mem _ hm)

/-- C6.  Question operations preserve the at-most-one-translation-per-
language-id invariant: a create request that passes validation stores
translations with pairwise-distinct numeric language ids, and the PATCH
merge loop (replace the entry with the same numeric id, else append)
maps a stored list with distinct ids to a list with distinct ids, for
any submitted translation list. -/
theorem c6_translations_unique_invariant :
    (∀ ts : List TransReq, validateTranslations ts = none →
        uniqLangIds (createTranslations ts)) ∧
    (∀ (stored : List StoredTrans) (ts : List TransReq),
        uniqLangIds stored → uniqLangIds (mergeTranslations stored ts)) :=
  ⟨fun ts h => (create_uniq_aux ts [] h).1,
   fun stored ts h => mergeTranslations_uniq ts stored h⟩

/-- C6 witness: creating from two distinct-language translations yields
distinct stored ids, and merging `languageId:"1"` (numerically equal to
the stored `1`) plus a new language `2` into a stored singleton keeps
the ids distinct. -/
theorem c6_witness :
    uniqLangIds (createTranslations
      [⟨.vNum 1, .vStr "q", .vStr "a"⟩, ⟨.vNum 2, .vStr "q2", .vStr "a2"⟩]) ∧
    uniqLangIds (mergeTranslations [⟨some 1, .vStr "q", .vStr "a"⟩]
      [⟨.vStr "1", .vStr "nq", .vStr "na"⟩, ⟨.vNum 2, .vStr "q2", .vStr "a2"⟩]) :=
  ⟨c6_translations_unique_invariant.1 _ rfl,
   c6_translations_unique_invariant.2 _ _ (by
     unfold uniqLangIds
     simp only [List.map_cons, List.map_nil]
     exact List.pairwise_singleton _ _)⟩

/-! ## Flats — address normalizer (src/routes/flats.ts, `parseAddress`)

`JSON.parse` is a JS builtin; it is modelled by a small fueled
recursive-descent parser covering the JSON forms the routes can
receive (objects, arrays, strings with simple escapes, integers,
booleans, null).  Structural fuel keeps every definition
kernel-evaluable. -/

def lbrace : Char := Char.ofNat 123

def rbrace : Char := Char.ofNat 125

def skipWsChars (l : List Char) : List Char := l.dropWhile isWsChar

def escChar (e : Char) : Char :=
  if e == 'n' then '\n'
  else if e == 't' then '\t'
  else if e == 'r' then '\r'
  else e

/-- Leading digit run of a JSON number. -/
def parseDigits (l : List Char) : Option (Nat × List Char) :=
  let ds := l.takeWhile Char.isDigit
  if ds.isEmpty then none
  else some (ds.foldl (fun a c => a * 10 + (c.toNat - ('0').toNat)) 0,
    l.dropWhile Char.isDigit)

/-- JSON integer literal (the routes never receive fractional or
exponent literals through `parseAddress`). -/
def parseJsonNumber (l : List Char) : Option (Value × List Char) :=
  match l with
  | '-' :: rest =>
    match parseDigits rest with
    | some (n, r) => some (.vNum (-(n : Int)), r)
    | none => none
  | _ =>
    match parseDigits l with
    | some (n, r) => some (.vNum (n : Int), r)
    | none => none

/-- String body after the opening quote: plain characters and
single-character escapes, up to the closing quote. -/
def parseJsonStringChars : Nat → List Char → Option (List Char × List Char)
  | 0, _ => none
  | fuel + 1, l =>
    match l with
    | [] => none
    | c :: rest =>
      if c == '"' then some ([], rest)
      else if c == '\\' then
        match rest with
        | e :: r2 =>
          match parseJsonStringChars fuel r2 with
          | some (s, r) => some (escChar e :: s, r)
          | none => none
        | [] => none
      else
        match parseJsonStringChars fuel rest with
        | some (s, r) => some (c :: s, r)
        | none => none

/-- Parser mode: a JSON value, the members of an object, or the
elements of an array (with what has been accumulated so far). -/
inductive PMode where
  | val : PMode
  | members : List (String × Value) → PMode
  | elems : List Value → PMode

/-- Fueled recursive-descent JSON parser. -/
def parseJson : Nat → PMode → List Char → Option (Value × List Char)
  | 0, _, _ => none
  | fuel + 1, .val, l =>
    let l1 := skipWsChars l
    match l1 with
    | [] => none
    | c :: rest =>
      if c == lbrace then
        match skipWsChars rest with
        | d :: r2 => if d == rbrace then some (.vObj [], r2)
            else parseJson fuel (.members []) (skipWsChars rest)
        | [] => none
      else if c == '[' then
        match skipWsChars rest with
        | d :: r2 => if d == ']' then some (.vArr [], r2)
            else parseJson fuel (.elems []) (skipWsChars rest)
        | [] => none
      else if c == '"' then
        match parseJsonStringChars (fuel + 1) rest with
        | some (s, r) => some (.vStr (String.mk s), r)
        | none => none
      else if l1.take 4 = ['t', 'r', 'u', 'e'] then some (.vBool true, l1.drop 4)
      else if l1.take 5 = ['f', 'a', 'l', 's', 'e'] then some (.vBool false, l1.drop 5)
      else if l1.take 4 = ['n', 'u', 'l', 'l'] then some (.vNull, l1.drop 4)
      else parseJsonNumber l1
  | fuel + 1, .members acc, l =>
    match skipWsChars l with
    | c :: rest =>
      if c == '"' then
        match parseJsonStringChars (fuel + 1) rest with
        | some (k, r1) =>
          match skipWsChars r1 with
          | d :: r3 =>
            if d == ':' then
              match parseJson fuel .val r3 with
              | some (v, r4) =>
                match skipWsChars r4 with
                | e :: r6 =>
                  if e == ',' then
                    parseJson fuel (.members (acc ++ [(String.mk k, v)])) r6
                  else if e == rbrace then
                    some (.vObj (acc ++ [(String.mk k, v)]), r6)
                  else none
                | [] => none
              | none => none
            else none
          | [] => none
        | none => none
      else none
    | [] => none
  | fuel + 1, .elems acc, l =>
    match parseJson fuel .val l with
    | some (v, r1) =>
      match skipWsChars r1 with
      | e :: r3 =>
        if e == ',' then parseJson fuel (.elems (acc ++ [v])) r3
        else if e == ']' then some (.vArr (acc ++ [v]), r3)
        else none
      | [] => none
    | none => none

/-- JS `JSON.parse`: the whole input (up to trailing whitespace) must be
one JSON value, else the parse throws (`none`). -/
def jsonParse (s : String) : Option Value :=
  match parseJson (s.data.length * 4 + 16) .val s.data with
  | some (v, rest) => if (skipWsChars rest).isEmpty then some v else none
  | none => none

/-- The test `typeof v === 'object'` (objects, arrays and `null` in JS). -/
def isObjectTypeof : Value → Bool
  | .vObj _ => true
  | .vArr _ => true
  | .vNull => true
  | _ => false

/-- The canonical address record produced by `parseAddress`, with each
field holding the (possibly `undefined`) normalized value. -/
structure AddressRec where
  street : Value
  city : Value
  state : Value
  zip : Value

/-- The nested-address branch of `parseAddress`: a non-nullish
`body.address` that is a string is JSON-parsed (a parse failure or a
non-object result falls through), and a non-string `body.address` is
taken when `typeof` is `'object'`. -/
def addressCandidate (body : Value) : Option Value :=
  let a := getField body "address"
  if !isNullish a then
    match a with
    | .vStr s =>
      match jsonParse s with
      | some parsed =>
        if truthy parsed && isObjectTypeof parsed then some parsed else none
      | none => none
    | _ => if isObjectTypeof a then some a else none
  else none

/-- Alias chain `x ?? y ?? z` (first non-nullish wins). -/
def resolveAlias (x y z : Value) : Value :=
  nullishAlt (nullishAlt x y) z

/-- The flattened-fields branch of `parseAddress`: each of the four
fields is resolved through its alias chain, and the branch applies only
when at least one resolved value is truthy. -/
def flatCandidate (body : Value) : Option Value :=
  let street := resolveAlias (getField body "street")
    (getField body "address_street") (getField body "addr_street")
  let city := resolveAlias (getField body "city")
    (getField body "address_city") (getField body "addr_city")
  let state := resolveAlias (getField body "state")
    (getField body "address_state") (getField body "addr_state")
  let zip := resolveAlias (getField body "zip")
    (getField body "address_zip") (getField body "addr_zip")
  if truthy street || truthy city || truthy state || truthy zip then
    some (.vObj [("street", street), ("city", city), ("state", state), ("zip", zip)])
  else none

/-- The legacy branch of `parseAddress`:
`if (!address && body?.location) address = {street: String(body.location)}`. -/
def legacyCandidate (body : Value) : Option Value :=
  if truthy (getField body "location") then
    some (.vObj [("street", .vStr (jsToString (getField body "location")))])
  else none

/-- The resolution order of `parseAddress`: nested address, then
flattened fields, then legacy location. -/
def rawAddress (body : Value) : Option Value :=
  match addressCandidate body with
  | some a => some a
  | none =>
    match flatCandidate body with
    | some a => some a
    | none => legacyCandidate body

/-- The helper `norm`: trim strings, pass anything else through. -/
def normField (v : Value) : Value :=
  match v with
  | .vStr s => .vStr (jsTrim s)
  | _ => v

/-- Function `parseAddress` from src/routes/flats.ts. -/
def parseAddress (body : Value) : Option AddressRec :=
  match rawAddress body with
  | some a => some
      { street := normField (getField a "street")
        city := normField (getField a "city")
        state := normField (getField a "state")
        zip := normField (getField a "zip") }
  | none => none

/-- C7.  The JSON-encoded string shape, the flattened-field shape and
the legacy location shape all normalize to the identical canonical
record `street:"A"` with `city`, `state` and `zip` undefined. -/
theorem c7_address_shapes_normalize :
    parseAddress (.vObj [("address", .vStr "\x7b\"street\":\"A\"\x7d")]) =
      some ⟨.vStr "A", .vUndefined, .vUndefined, .vUndefined⟩ ∧
    parseAddress (.vObj [("street", .vStr "A")]) =
      some ⟨.vStr "A", .vUndefined, .vUndefined, .vUndefined⟩ ∧
    parseAddress (.vObj [("location", .vStr "A")]) =
      some ⟨.vStr "A", .vUndefined, .vUndefined, .vUndefined⟩ :=
  ⟨rfl, rfl, rfl⟩

/-- The nested-address part of the "address signal": an `address` key
holding a non-null object, or a string that JSON-parses to a non-null
object. -/
def nestedAddressSignal (body : Value) : Bool :=
  let a := getField body "address"
  !isNullish a &&
    (match a with
     | .vStr s =>
       match jsonParse s with
       | some parsed => truthy parsed && isObjectTypeof parsed
       | none => false
     | _ => isObjectTypeof a)

/-- The claim's notion of an address signal, following its words:
a nested address, or a truthy value under any of the twelve flattened
alias keys, or a truthy legacy `location`. -/
def hasAddressSignalClaimed (body : Value) : Bool :=
  nestedAddressSignal body ||
  truthy (getField body "street") || truthy (getField body "address_street") ||
  truthy (getField body "addr_street") ||
  truthy (getField body "city") || truthy (getField body "address_city") ||
  truthy (getField body "addr_city") ||
  truthy (getField body "state") || truthy (getField body "address_state") ||
  truthy (getField body "addr_state") ||
  truthy (getField body "zip") || truthy (getField body "address_zip") ||
  truthy (getField body "addr_zip") ||
  truthy (getField body "location")

/-- The amended notion of an address signal: a nested address, or a
truthy value among the four alias chains each resolved
first-non-nullish (`street ?? address_street ?? addr_street`, etc.), or
a truthy legacy `location`. -/
def hasAddressSignalAmended (body : Value) : Bool :=
  nestedAddressSignal body ||
  truthy (resolveAlias (getField body "street")
    (getField body "address_street") (getField body "addr_street")) ||
  truthy (resolveAlias (getField body "city")
    (getField body "address_city") (getField body "addr_city")) ||
  truthy (resolveAlias (getField body "state")
    (getField body "address_state") (getField body "addr_state")) ||
  truthy (resolveAlias (getField body "zip")
    (getField body "address_zip") (getField body "addr_zip")) ||
  truthy (getField body "location")

/-- C8, counterexample.  On `{street:"", address_street:"Main"}` the
payload contains a truthy flattened street alias (`address_street`),
so by the claim the normalizer should not return undefined; but the
`??` chain resolves `street` to the non-nullish falsy `""`, which masks
`"Main"`, and `parseAddress` returns undefined. -/
theorem c8_counterexample :
    parseAddress (.vObj [("street", .vStr ""), ("address_street", .vStr "Main")])
        = none ∧
    hasAddressSignalClaimed
        (.vObj [("street", .vStr ""), ("address_street", .vStr "Main")]) = true :=
  ⟨rfl, rfl⟩

lemma addressCandidate_none_iff (body : Value) :
    addressCandidate body = none ↔ nestedAddressSignal body = false := by
  unfold addressCandidate nestedAddressSignal
  cases hA : getField body "address" with
  | vStr s =>
    cases hp : jsonParse s with
    | some parsed =>
      by_cases h : (truthy parsed && isObjectTypeof parsed) = true <;>
        simp [isNullish, hp, h]
    | none => simp [isNullish, hp]
  | vUndefined => simp [isNullish]
  | vNull => simp [isNullish]
  | vBool b => simp [isNullish, isObjectTypeof]
  | vNum n => simp [isNullish, isObjectTypeof]
  | vObj fields => simp [isNullish, isObjectTypeof]
  | vArr elems => simp [isNullish, isObjectTypeof]

lemma flatCandidate_none_iff (body : Value) :
    flatCandidate body = none ↔
      (truthy (resolveAlias (getField body "street")
          (getField body "address_street") (getField body "addr_street")) ||
        truthy (resolveAlias (getField body "city")
          (getField body "address_city") (getField body "addr_city")) ||
        truthy (resolveAlias (getField body "state")
          (getField body "address_state") (getField body "addr_state")) ||
        truthy (resolveAlias (getField body "zip")
          (getField body "address_zip") (getField body "addr_zip"))) = false := by
  simp only [flatCandidate]
  split_ifs with h
  · simp only [reduceCtorEq, false_iff]
    intro hc
    rw [hc] at h
    exact absurd h (by simp)
  · simp only [Bool.not_eq_true] at h
    simp [h]

lemma legacyCandidate_none_iff (body : Value) :
    legacyCandidate body = none ↔ truthy (getField body "location") = false := by
  unfold legacyCandidate
  split_ifs with h
  · simp [h]
  · simp only [Bool.not_eq_true] at h
    simp [h]

lemma rawAddress_none_iff (body : Value) :
    rawAddress body = none ↔
      addressCandidate body = none ∧ flatCandidate body = none ∧
        legacyCandidate body = none := by
  unfold rawAddress
  cases h1 : addressCandidate body with
  | some a => simp
  | none =>
    cases h2 : flatCandidate body with
    | some a => simp
    | none => simp

lemma parseAddress_none_iff (body : Value) :
    parseAddress body = none ↔ rawAddress body = none := by
  unfold parseAddress
  cases h : rawAddress body <;> simp

/-- C8, amended.  `parseAddress` returns undefined exactly when no
address signal exists under the code's own resolution: no nested
address (object, or string parsing to a non-null object), all four
flattened alias chains resolve first-non-nullish to falsy values, and
no truthy legacy `location` — so callers can distinguish "no address
supplied" from "address supplied but empty". -/
theorem c8_no_signal_iff_undefined (body : Value) :
    parseAddress body = none ↔ hasAddressSignalAmended body = false := by
  rw [parseAddress_none_iff, rawAddress_none_iff, addressCandidate_none_iff,
    flatCandidate_none_iff, legacyCandidate_none_iff]
  unfold hasAddressSignalAmended
  simp only [Bool.or_eq_false_iff]
  tauto

/-! ## Flats — currency normalization (src/routes/flats.ts) -/

def allowedCurrencies : List String := ["GEL", "USD", "EUR"]

def invalidCurrencyErr : String := "Invalid currency. Allowed: GEL, USD, EUR"

/-- POST /flats currency handling: a string whose trim is truthy
(non-empty) is trimmed, upper-cased and checked against the allowed
set (error when outside); anything else leaves the normalized currency
undefined, deferring to the schema default GEL. -/
def createCurrency (currency : Value) : Except String (Option String) :=
  match currency with
  | .vStr s =>
    if jsTrim s ≠ "" then
      if allowedCurrencies.contains (jsUpper (jsTrim s)) then
        .ok (some (jsUpper (jsTrim s)))
      else .error invalidCurrencyErr
    else .ok none
  | _ => .ok none

/-- PATCH /flats/:id currency handling: a truthy currency whose
`String(currency).toUpperCase()` lies outside the allowed set is
rejected; then any non-nullish currency is written upper-cased — with
no trim, and the falsy empty string bypasses the check yet is still
written. -/
def patchCurrency (currency : Value) : Except String (Option String) :=
  if truthy currency &&
      !allowedCurrencies.contains (jsUpper (jsToString currency)) then
    .error invalidCurrencyErr
  else if !isNullish currency then .ok (some (jsUpper (jsToString currency)))
  else .ok none

/-- C9, counterexample.  The claim says both create and update trim the
currency and turn an empty value into undefined; but the update path
does not trim — `" usd "` is accepted (as `"USD"`) by create and
rejected by update — and update writes the empty string instead of
leaving the field undefined. -/
theorem c9_counterexample :
    createCurrency (.vStr " usd ") = .ok (some "USD") ∧
    patchCurrency (.vStr " usd ") = .error invalidCurrencyErr ∧
    patchCurrency (.vStr "") = .ok (some "") :=
  ⟨rfl, rfl, rfl⟩

/-- C9, amended.  Create trims and upper-cases a string currency with
non-empty trim, rejecting results outside {GEL, USD, EUR}, and leaves
everything else undefined; update upper-cases without trimming — a
non-empty string is rejected exactly when its upper-casing is outside
the set — writes the empty string through unchecked, and leaves nullish
currency undefined.  In particular "usd" maps to "USD" and "BTC" is
rejected on both paths. -/
theorem c9_currency_normalization :
    (∀ s : String, jsTrim s ≠ "" →
        createCurrency (.vStr s) =
          (if allowedCurrencies.contains (jsUpper (jsTrim s)) then
            .ok (some (jsUpper (jsTrim s)))
          else .error invalidCurrencyErr)) ∧
    (∀ s : String, jsTrim s = "" → createCurrency (.vStr s) = .ok none) ∧
    (∀ v : Value, (∀ s, v ≠ .vStr s) → createCurrency v = .ok none) ∧
    (∀ s : String, s ≠ "" →
        patchCurrency (.vStr s) =
          (if allowedCurrencies.contains (jsUpper s) then .ok (some (jsUpper s))
          else .error invalidCurrencyErr)) ∧
    patchCurrency (.vStr "") = .ok (some "") ∧
    (∀ v : Value, isNullish v = true → patchCurrency v = .ok none) ∧
    createCurrency (.vStr "usd") = .ok (some "USD") ∧
    createCurrency (.vStr "BTC") = .error invalidCurrencyErr ∧
    patchCurrency (.vStr "usd") = .ok (some "USD") ∧
    patchCurrency (.vStr "BTC") = .error invalidCurrencyErr := by
  refine ⟨?_, ?_, ?_, ?_, rfl, ?_, rfl, rfl, rfl, rfl⟩
  · intro s h
    show (if jsTrim s ≠ "" then
        if allowedCurrencies.contains (jsUpper (jsTrim s)) then
          Except.ok (some (jsUpper (jsTrim s)))
        else Except.error invalidCurrencyErr
      else Except.ok none) = _
    rw [if_pos h]
  · intro s h
    show (if jsTrim s ≠ "" then
        if allowedCurrencies.contains (jsUpper (jsTrim s)) then
          Except.ok (some (jsUpper (jsTrim s)))
        else Except.error invalidCurrencyErr
      else Except.ok none) = _
    rw [if_neg (by simp [h])]
  · intro v h
    cases v with
    | vStr s => exact absurd rfl (h s)
    | vUndefined => rfl
    | vNull => rfl
    | vBool b => rfl
    | vNum n => rfl
    | vObj fields => rfl
    | vArr elems => rfl
  · intro s h
    show (if truthy (.vStr s) && !allowedCurrencies.contains (jsUpper s) then
        Except.error invalidCurrencyErr
      else if !isNullish (Value.vStr s) then
        Except.ok (some (jsUpper s))
      else Except.ok none) = _
    by_cases hc : allowedCurrencies.contains (jsUpper s) = true
    · rw [if_neg (by intro hcond; rw [hc] at hcond; simp at hcond)]
      rw [if_pos (by simp [isNullish])]
      rw [if_pos hc]
    · have hcf : allowedCurrencies.contains (jsUpper s) = false :=
        Bool.eq_false_iff.mpr hc
      rw [if_pos (by
        simp only [truthy, Bool.and_eq_true, bne_iff_ne, ne_eq, Bool.not_eq_true']
        exact ⟨h, hcf⟩)]
      rw [if_neg hc]
  · intro v h
    unfold patchCurrency
    rw [if_neg (by
      cases v <;> simp_all [isNullish, truthy])]
    rw [if_neg (by simp [h])]

/-- C9 witness: the amended theorem applied at `" usd "` for create, at
`"btc"` for update, and at an absent currency for update. -/
theorem c9_witness :
    createCurrency (.vStr " usd ") = .ok (some "USD") ∧
    patchCurrency (.vStr "btc") = .error invalidCurrencyErr ∧
    patchCurrency .vUndefined = .ok none :=
  ⟨(c9_currency_normalization.1 " usd " (by decide)).trans (by rfl),
   ((c9_currency_normalization.2.2.2.1 "btc" (by decide)).trans (by rfl)),
   c9_currency_normalization.2.2.2.2.2.1 .vUndefined rfl⟩

/-! ## POST /flats — flat creation (src/routes/flats.ts)

The route is registered as `router.post('/flats', handler)` with no
upload middleware (compare `/flats/:id/images`, which registers
`upload.array`), and the app installs only `express.json()`; so
`req.file` is never populated on this route. -/

/-- A multer file as the handler reads it (`memoryStorage` leaves
`filename` unset). -/
structure MFile where
  filename : Value
  originalname : String
  size : Int
  mimetype : String

/-- An image subdocument created by POST /flats. -/
structure FlatImage where
  url : String
  localUrl : String
  filename : Value
  size : Int
  contentType : String
  storage : String

/-- The flat document POST /flats would create. -/
structure FlatDoc where
  square : Value
  address : AddressRec
  price : Value
  currency : Option String
  images : List FlatImage

inductive PostFlatsResult where
  | created : FlatDoc → PostFlatsResult
  | badRequest : String → PostFlatsResult

def PostFlatsResult.status : PostFlatsResult → Nat
  | .created _ => 201
  | .badRequest _ => 400

/-- The POST /flats handler body.  The source tests
`square == null || price == null || !address` in one condition; it is
rendered with the address case split first (same message either
way). -/
def postFlatsHandler (body : Value) (file : Option MFile) : PostFlatsResult :=
  match parseAddress body with
  | none => .badRequest "square, address.street, and price are required"
  | some address =>
    if isNullish (getField body "square") || isNullish (getField body "price") then
      .badRequest "square, address.street, and price are required"
    else if !truthy address.street then
      .badRequest "address.street is required"
    else
      match file with
      | none =>
        .badRequest "image file is required (multipart/form-data, field name \"image\")"
      | some f =>
        match createCurrency (getField body "currency") with
        | .error e => .badRequest e
        | .ok normalizedCurrency =>
          .created
            { square := getField body "square"
              address := address
              price := getField body "price"
              currency := normalizedCurrency
              images := [{
                url := "/uploads/" ++ jsToString f.filename
                localUrl := "/uploads/" ++ jsToString f.filename
                filename := f.filename
                size := f.size
                contentType := f.mimetype
                storage := "local" }] }

/-- The POST /flats route as wired in the app: no multer middleware is
registered on it, so the handler always receives `req.file`
undefined. -/
def postFlatsRoute (body : Value) : PostFlatsResult :=
  postFlatsHandler body none

/-- C3.  As wired, POST /flats can never answer 201: with no upload
middleware on the route, `req.file` is always undefined and every
request — including the claim's valid flat with one image — is refused
with 400; the image-required message is returned even for a fully valid
body. -/
theorem c3_post_flats_never_201 :
    (∀ body : Value, (postFlatsRoute body).status = 400) ∧
    postFlatsRoute
        (.vObj [("square", .vNum 50), ("price", .vNum 1000), ("street", .vStr "A")]) =
      .badRequest "image file is required (multipart/form-data, field name \"image\")" := by
  constructor
  · intro body
    unfold postFlatsRoute postFlatsHandler
    cases parseAddress body with
    | none => rfl
    | some a =>
      show (PostFlatsResult.status
        (if isNullish (getField body "square") || isNullish (getField body "price") then
          .badRequest "square, address.street, and price are required"
        else if !truthy a.street then .badRequest "address.street is required"
        else .badRequest
          "image file is required (multipart/form-data, field name \"image\")")) = 400
      split_ifs <;> rfl
  · rfl

/-! ## POST /assign-flat (src/routes/flats.ts) -/

/-- The persistent state the handler touches: each user's denormalized
`flats` array (absent arrays behave as empty), the set of existing flat
ids, and the `UserFlat` join collection. -/
structure AssignState where
  users : List (String × List String)
  flatIds : List String
  userFlats : List (String × String)

inductive AssignResult where
  | ok : Nat → AssignResult
  | badRequest : String → AssignResult
  | notFound : String → AssignResult

def assignDupErr : String := "Flat is already assigned to this user."

def findUser (s : AssignState) (uid : String) : Option (List String) :=
  (s.users.find? (fun p => p.1 == uid)).map Prod.snd

/-- The POST /assign-flat handler: missing ids give 400, missing user
or flat 404, an id already in the user's `flats` array 400; otherwise
the flat id is pushed onto the user's array, the user saved, and a
`UserFlat` join row created (two independent writes). -/
def assignFlat (s : AssignState) (userId flatId : String) :
    AssignResult × AssignState :=
  if userId = "" ∨ flatId = "" then
    (.badRequest "userId and flatId are required.", s)
  else
    match findUser s userId with
    | none => (.notFound "User or Flat not found.", s)
    | some flats =>
      if !s.flatIds.contains flatId then (.notFound "User or Flat not found.", s)
      else if flats.contains flatId then (.badRequest assignDupErr, s)
      else
        (.ok (flats.length + 1),
          { users := s.users.map
              (fun p => if p.1 == userId then (p.1, p.2 ++ [flatId]) else p)
            flatIds := s.flatIds
            userFlats := s.userFlats ++ [(userId, flatId)] })

lemma findUser_after_push (s : AssignState) (userId flatId : String)
    (flats : List String) (hf : findUser s userId = some flats) :
    findUser
      { users := s.users.map
          (fun p => if p.1 == userId then (p.1, p.2 ++ [flatId]) else p)
        flatIds := s.flatIds
        userFlats := s.userFlats ++ [(userId, flatId)] } userId
      = some (flats ++ [flatId]) := by
  unfold findUser at hf ⊢
  rw [List.find?_map]
  have hpred : ((fun (p : String × List String) => p.1 == userId) ∘
      (fun p => if p.1 == userId then (p.1, p.2 ++ [flatId]) else p))
      = (fun (p : String × List String) => p.1 == userId) := by
    funext p
    by_cases hp : p.1 = userId <;> simp [hp]
  rw [hpred]
  cases hfind : s.users.find? (fun p => p.1 == userId) with
  | none => rw [hfind] at hf; simp at hf
  | some p0 =>
    rw [hfind] at hf
    simp only [Option.map_some', Option.some.injEq] at hf
    have hk : (p0.1 == userId) = true := by
      have := List.find?_some hfind
      exact this
    simp only [Option.map_some', Option.some.injEq, hk, if_true]
    rw [hf]

lemma assignFlat_some (s : AssignState) (userId flatId : String)
    (flats : List String) (h1 : ¬(userId = "" ∨ flatId = ""))
    (hfu : findUser s userId = some flats) :
    assignFlat s userId flatId =
      (if (!s.flatIds.contains flatId) = true then
        (.notFound "User or Flat not found.", s)
      else if flats.contains flatId = true then (.badRequest assignDupErr, s)
      else
        (.ok (flats.length + 1),
          { users := s.users.map
              (fun p => if p.1 == userId then (p.1, p.2 ++ [flatId]) else p)
            flatIds := s.flatIds
            userFlats := s.userFlats ++ [(userId, flatId)] })) := by
  unfold assignFlat
  rw [if_neg h1, hfu]

/-- C10.  When an /assign-flat call for a user/flat pair succeeds, the
same call on the resulting state answers 400 ("Flat is already
assigned to this user.") and leaves the state untouched: the user's
flats array and the `UserFlat` join collection are exactly those after
the first call. -/
theorem c10_assign_flat_rejects_duplicate
    (s : AssignState) (userId flatId : String) (n : Nat) (s' : AssignState)
    (h : assignFlat s userId flatId = (.ok n, s')) :
    assignFlat s' userId flatId = (.badRequest assignDupErr, s') := by
  by_cases h1 : userId = "" ∨ flatId = ""
  · unfold assignFlat at h
    rw [if_pos h1] at h
    exact absurd h (by simp)
  · cases hfu : findUser s userId with
    | none =>
      unfold assignFlat at h
      rw [if_neg h1, hfu] at h
      exact absurd h (by simp)
    | some flats =>
      rw [assignFlat_some s userId flatId flats h1 hfu] at h
      split_ifs at h with h2 h3
      · exact absurd h (by simp)
      · exact absurd h (by simp)
      · have hs' : s' =
            { users := s.users.map
                (fun p => if p.1 == userId then (p.1, p.2 ++ [flatId]) else p)
              flatIds := s.flatIds
              userFlats := s.userFlats ++ [(userId, flatId)] } := by
          have := congrArg Prod.snd h
          simpa using this.symm
        subst hs'
        have hfu' := findUser_after_push s userId flatId flats hfu
        rw [assignFlat_some _ userId flatId (flats ++ [flatId]) h1 hfu']
        rw [if_neg h2]
        rw [if_pos (by simp [List.contains, List.elem_iff])]

/-- C10 witness: the theorem applied to the concrete one-user
one-flat state, where the first call succeeds by evaluation. -/
theorem c10_witness :
    assignFlat
      { users := [("u1", ["f1"])], flatIds := ["f1"],
        userFlats := [("u1", "f1")] } "u1" "f1"
      = (.badRequest assignDupErr,
         { users := [("u1", ["f1"])], flatIds := ["f1"],
           userFlats := [("u1", "f1")] }) :=
  c10_assign_flat_rejects_duplicate
    { users := [("u1", [])], flatIds := ["f1"], userFlats := [] }
    "u1" "f1" 1
    { users := [("u1", ["f1"])], flatIds := ["f1"], userFlats := [("u1", "f1")] }
    rfl

end BkNode
